import Mathlib

/-!
Shallow embedding of the exam-api HTTP gateway (src/src/index.js and the
related revisions src/unnamed/part_000, src/unnamed/part_001).

The repository is a Fastify server with three routes over an in-memory
recipe store and two upstream REST services (city insights, weather
predictions).  We embed:

* JavaScript runtime values (`JVal`) as far as the handlers inspect them:
  numbers are modelled as rationals (`Rat`) — no claim here depends on
  IEEE-754 behaviour, only on `typeof x === 'number'`, `Number.isInteger`,
  truthiness and property access;
* the recipe store object `recipeStorage` with its four methods,
  including the `parseInt` coercion that `getById`/`deleteById` apply to
  their argument;
* the three route handlers.  Upstream `fetch` calls are modelled by an
  oracle argument of type `Fetch α`: `ok body` for a 2xx response whose
  JSON parsed to `body`, `notFound` for HTTP 404, `otherErr` for any
  other non-success status, network failure, or body-parse failure (all
  of which reach the handler's catch block identically).

The GET /cities/:cityId/infos handler is embedded from
src/unnamed/part_001 (the revision containing the shape validation the
spec describes as Validators/Normalizers); the store and the POST/DELETE
handlers are identical in all three revisions.
-/

/-- JavaScript values as inspected by the handlers.  `vundefined` is
`undefined` (absent property); numbers are rationals. -/
inductive JVal : Type where
  | vnum (q : Rat)
  | vstr (s : String)
  | vbool (b : Bool)
  | vnull
  | vundefined
  | varr (xs : List JVal)
  | vobj (fields : List (String × JVal))

/-- JS truthiness (`!x` negates it).  `NaN` is not modelled; arrays and
objects are always truthy. -/
def jsTruthy : JVal → Bool
  | .vnum q => q != 0
  | .vstr s => s != ""
  | .vbool b => b
  | .vnull => false
  | .vundefined => false
  | .varr _ => true
  | .vobj _ => true

/-- `typeof x === 'number'`. -/
def isNum : JVal → Bool
  | .vnum _ => true
  | _ => false

/-- `Array.isArray(x)`. -/
def isArray : JVal → Bool
  | .varr _ => true
  | _ => false

/-- JS property access `x[k]` for a string key: defined on objects,
`undefined` everywhere else.  (On `null`/`undefined` JS would throw, but
every access in the handlers is either guarded by a truthiness check or
its failure lands in the same catch block the model maps to the same
error reply.) -/
def JVal.get : JVal → String → JVal
  | .vobj fields, k =>
    match fields.find? (fun f => f.1 == k) with
    | some f => f.2
    | none => .vundefined
  | _, _ => .vundefined

/-- JS array indexing `x[i]`: out of bounds or non-array gives
`undefined`. -/
def arrIdx : JVal → Nat → JVal
  | .varr xs, i => xs.getD i .vundefined
  | _, _ => .vundefined

/-- The `.length` property: strings and arrays have a numeric length,
everything else yields `undefined` (`none`). -/
def lengthProp : JVal → Option Nat
  | .vstr s => some s.length
  | .varr xs => some xs.length
  | _ => none

/-- JS `x.length < k` where the length may be `undefined`:
`undefined < k` is `NaN < k`, which is `false`. -/
def jsLtNum (len : Option Nat) (k : Nat) : Bool :=
  match len with
  | some n => n < k
  | none => false

/-- JS `x.length > k`, `undefined > k` is `false`. -/
def jsGtNum (len : Option Nat) (k : Nat) : Bool :=
  match len with
  | some n => k < n
  | none => false

/-- The numeric value of a `JVal`; only applied after an `isNum` guard
(`Number(x)` is the identity on numbers). -/
def asNum : JVal → Rat
  | .vnum q => q
  | _ => 0

/-- `Number.isInteger(q)` for a (finite) number modelled as a rational:
true exactly when the rational is an integer. -/
def ratIsInt (q : Rat) : Bool := q.den == 1

/-- `parseInt` applied to a number the handler has already checked with
`Number.isInteger`: the exact integer value (den = 1, so `q.num / q.den
= q.num`). -/
def jsNumToInt (q : Rat) : Int := q.num / (q.den : Int)

/-- Characters `parseInt` skips as leading whitespace. -/
def isJsSpace (c : Char) : Bool :=
  c == ' ' || c == '\t' || c == '\n' || c == '\r'

/-- Value of a list of decimal digit characters, most significant
first. -/
def digitsVal (l : List Char) : Nat :=
  l.foldl (fun a c => 10 * a + (c.toNat - 48)) 0

/-- Value of a list of hexadecimal digit characters. -/
def hexDigitsVal (l : List Char) : Nat :=
  l.foldl (fun a c =>
    16 * a + (if c.isDigit then c.toNat - 48
              else if c ≤ 'F' then c.toNat - 55 else c.toNat - 87)) 0

def isHexDigit (c : Char) : Bool :=
  c.isDigit || ('a' ≤ c && c ≤ 'f') || ('A' ≤ c && c ≤ 'F')

/-- Leading decimal digits of the remaining input, ECMA `parseInt` style:
no digit at all means `NaN` (`none`); trailing garbage is ignored. -/
def parseDecDigits (l : List Char) : Option Int :=
  let ds := l.takeWhile Char.isDigit
  if ds.isEmpty then none else some (digitsVal ds : Nat)

/-- Hexadecimal branch of `parseInt` (after a `0x`/`0X` prefix). -/
def parseHexDigits (l : List Char) : Option Int :=
  let ds := l.takeWhile isHexDigit
  if ds.isEmpty then none else some (hexDigitsVal ds : Nat)

/-- `parseInt` after whitespace and sign: radix-16 on a `0x` prefix,
radix 10 otherwise. -/
def jsParseIntNoSign (l : List Char) : Option Int :=
  match l with
  | c0 :: c1 :: rest =>
    if c0 = '0' ∧ (c1 = 'x' ∨ c1 = 'X') then parseHexDigits rest
    else parseDecDigits (c0 :: c1 :: rest)
  | _ => parseDecDigits l

/-- `parseInt` after whitespace: an optional single sign character. -/
def jsParseIntSigned (l : List Char) : Option Int :=
  match l with
  | [] => none
  | c :: rest =>
    if c = '-' then (jsParseIntNoSign rest).map (fun v => -v)
    else if c = '+' then jsParseIntNoSign rest
    else jsParseIntNoSign (c :: rest)

/-- ECMA `parseInt(s)` with the default radix: `none` models `NaN`
(and `NaN === n` is false for every number `n`). -/
def jsParseInt (s : String) : Option Int :=
  jsParseIntSigned (s.data.dropWhile isJsSpace)

/-- Decimal digit characters of `n`, most significant first (the string
form a numeric id takes as a path parameter). -/
def natDigitChars (n : Nat) : List Char :=
  if _h : n < 10 then [Nat.digitChar n]
  else natDigitChars (n / 10) ++ [Nat.digitChar (n % 10)]
  termination_by n
  decreasing_by exact Nat.div_lt_self (by omega) (by omega)

/-- Decimal string form of `n`. -/
def natDecimalRepr (n : Nat) : String := ⟨natDigitChars n⟩

/-- JS `String(x)` coercion, as used on recipe contents and `knownFor`
entries.  Arrays join their elements with commas, `null`/`undefined`
rendering as empty inside an array; objects give the generic tag. -/
def ratJsString (q : Rat) : String :=
  if q.den = 1 then toString q.num else toString q

mutual

def jsToString : JVal → String
  | .vnum q => ratJsString q
  | .vstr s => s
  | .vbool b => if b then "true" else "false"
  | .vnull => "null"
  | .vundefined => "undefined"
  | .varr xs => String.intercalate "," (jsToStringElems xs)
  | .vobj _ => "[object Object]"

def jsToStringElems : List JVal → List String
  | [] => []
  | .vnull :: vs => "" :: jsToStringElems vs
  | .vundefined :: vs => "" :: jsToStringElems vs
  | v :: vs => jsToString v :: jsToStringElems vs

end

/-- One stored recipe: `{ id, content, cityId }` as built by
`recipeStorage.add`. -/
structure Recipe : Type where
  id : Nat
  content : JVal
  cityId : String

/-- The `recipeStorage` object's state: the `recipes` array and
`lastId`. -/
structure RecipeStore : Type where
  recipes : List Recipe
  lastId : Nat

/-- Initial state: `recipes: [], lastId: 0`. -/
def RecipeStore.empty : RecipeStore := ⟨[], 0⟩

/-- `add(cityId, content)`: `const id = ++this.lastId`, push the record,
return it. -/
def RecipeStore.add (st : RecipeStore) (cityId : String) (content : JVal) :
    RecipeStore × Recipe :=
  let id := st.lastId + 1
  let recipe : Recipe := ⟨id, content, cityId⟩
  (⟨st.recipes ++ [recipe], id⟩, recipe)

/-- `getById(id)`: `recipes.find(r => r.id === parseInt(id))`.  A `NaN`
parse (`none`) matches nothing. -/
def RecipeStore.getById (st : RecipeStore) (id : String) : Option Recipe :=
  st.recipes.find? (fun r => jsParseInt id == some (r.id : Int))

/-- `getByCityId(cityId)`: `recipes.filter(r => r.cityId === cityId)`,
insertion order preserved. -/
def RecipeStore.getByCityId (st : RecipeStore) (cityId : String) : List Recipe :=
  st.recipes.filter (fun r => r.cityId == cityId)

/-- `deleteById(id)`: `findIndex` on `r.id === parseInt(id)`, splice out
the hit and return `true`, else return `false`. -/
def RecipeStore.deleteById (st : RecipeStore) (id : String) :
    RecipeStore × Bool :=
  match st.recipes.findIdx? (fun r => jsParseInt id == some (r.id : Int)) with
  | some i => (⟨st.recipes.eraseIdx i, st.lastId⟩, true)
  | none => (st, false)

/-- Outcome of one upstream `fetch`: a parsed 2xx body, an HTTP 404, or
anything else (other status, network failure, JSON-parse failure) that
the handlers turn into the same catch-all reply. -/
inductive Fetch (α : Type) : Type where
  | ok (body : α)
  | notFound
  | otherErr

/-- One weather entry of the aggregated response
(`{when, min, max}`). -/
structure WeatherEntry : Type where
  when : String
  min : Rat
  max : Rat
deriving DecidableEq

/-- One recipe of the aggregated response (`{id, content}` after the
`parseInt`/`String` normalization). -/
structure RecipeOut : Type where
  id : Nat
  content : String
deriving DecidableEq

/-- The 200 body of GET /cities/:cityId/infos. -/
structure InfosResponse : Type where
  coordinates : List Rat
  population : Int
  knownFor : List String
  weatherPredictions : List WeatherEntry
  recipes : List RecipeOut
deriving DecidableEq

/-- Reply of the infos handler: `err status message` models
`reply.code(status).send({error: message})`, `ok` the 200 document. -/
inductive InfosReply : Type where
  | err (status : Nat) (msg : String)
  | ok (resp : InfosResponse)
deriving DecidableEq

/-- The validated, coerced city document the infos handler extracts. -/
structure CityInfo : Type where
  coordinates : List Rat
  population : Int
  knownFor : List String

/-- City-shape validation and coercion from src/unnamed/part_001 lines
71-82 (checks) and 108-113 (coercions): coordinates must be an array of
exactly two numbers, population a number passing `Number.isInteger`,
knownFor an array; coordinates pass through `Number`, population through
`parseInt`, knownFor entries through `String`. -/
def validateCityShape (cd : JVal) : Option CityInfo :=
  if !(isArray (cd.get "coordinates")
        && (match cd.get "coordinates" with | .varr xs => xs.length == 2 | _ => false)
        && isNum (arrIdx (cd.get "coordinates") 0)
        && isNum (arrIdx (cd.get "coordinates") 1)) then none
  else if !(isNum (cd.get "population") && ratIsInt (asNum (cd.get "population"))) then none
  else if !(isArray (cd.get "knownFor")) then none
  else some
    { coordinates := [asNum (arrIdx (cd.get "coordinates") 0),
                      asNum (arrIdx (cd.get "coordinates") 1)]
      population := jsNumToInt (asNum (cd.get "population"))
      knownFor := (match cd.get "knownFor" with
                   | .varr xs => xs.map jsToString
                   | _ => []) }

/-- Weather-shape validation from src/unnamed/part_001 lines 93-98:
`today` and `tomorrow` must be truthy and carry numeric `min`/`max`;
values are coerced with `Number`.  Returns (todayMin, todayMax,
tomorrowMin, tomorrowMax). -/
def validateWeatherShape (w : JVal) : Option (Rat × Rat × Rat × Rat) :=
  let t := w.get "today"
  let tm := w.get "tomorrow"
  if !(jsTruthy t) || !(jsTruthy tm)
      || !(isNum (t.get "min")) || !(isNum (t.get "max"))
      || !(isNum (tm.get "min")) || !(isNum (tm.get "max")) then none
  else some (asNum (t.get "min"), asNum (t.get "max"),
             asNum (tm.get "min"), asNum (tm.get "max"))

/-- GET /cities/:cityId/infos (src/unnamed/part_001 lines 54-134).
City fetch: 404 → 404 "City not found", other non-success → throw → 500.
Shape validation failure → throw → 500.  Weather fetch: any non-success
→ throw → 500; weather shape failure → throw → 500.  Success assembles
the fixed-form document; stored recipe ids are already integers, so the
`parseInt(recipe.id)` in the recipe mapping is the identity. -/
def getCityInfos (st : RecipeStore) (cityId : String)
    (cityFetch : Fetch JVal) (weatherFetch : Fetch JVal) : InfosReply :=
  match cityFetch with
  | .notFound => .err 404 "City not found"
  | .otherErr => .err 500 "Internal server error"
  | .ok cityData =>
    match validateCityShape cityData with
    | none => .err 500 "Internal server error"
    | some city =>
      match weatherFetch with
      | .notFound => .err 500 "Internal server error"
      | .otherErr => .err 500 "Internal server error"
      | .ok weatherData =>
        match validateWeatherShape weatherData with
        | none => .err 500 "Internal server error"
        | some (tMin, tMax, tmMin, tmMax) =>
          .ok
            { coordinates := city.coordinates
              population := city.population
              knownFor := city.knownFor
              weatherPredictions :=
                [⟨"today", tMin, tMax⟩, ⟨"tomorrow", tmMin, tmMax⟩]
              recipes := (st.getByCityId cityId).map
                (fun r => ⟨r.id, jsToString r.content⟩) }

/-- Reply of the POST handler: `created` is the 201 `{id, content}`
body, `err` a `{error: message}` body with its status. -/
inductive PostReply : Type where
  | err (status : Nat) (msg : String)
  | created (id : Nat) (content : JVal)

/-- POST /cities/:cityId/recipes (src/src/index.js lines 103-139).
`const {content} = request.body || {}` reads the `content` property
(`undefined` on a falsy or non-object body, which `JVal.get` already
yields).  The three validation checks run in order before the city
fetch; the fetch oracle is consulted only after they pass. -/
def postRecipe (st : RecipeStore) (cityId : String) (body : JVal)
    (cityFetch : Fetch Unit) : RecipeStore × PostReply :=
  let content := body.get "content"
  if !(jsTruthy content) then (st, .err 400 "Content is required")
  else if jsLtNum (lengthProp content) 10 then
    (st, .err 400 "Content is too short (minimum 10 characters)")
  else if jsGtNum (lengthProp content) 2000 then
    (st, .err 400 "Content is too long (maximum 2000 characters)")
  else
    match cityFetch with
    | .notFound => (st, .err 404 "City not found")
    | .otherErr => (st, .err 500 "Internal server error")
    | .ok _ =>
      let res := st.add cityId content
      (res.1, .created res.2.id res.2.content)

/-- Reply of the DELETE handler: `noContent` is the empty 204. -/
inductive DeleteReply : Type where
  | err (status : Nat) (msg : String)
  | noContent
deriving DecidableEq

/-- DELETE /cities/:cityId/recipes/:recipeId (src/src/index.js lines
142-175).  City 404 → 404; city other failure → 500; unknown recipe id
→ 404 "Recipe not found"; stored cityId differing from the path cityId
→ 404 "Recipe not found for this city"; otherwise delete and 204. -/
def deleteRecipe (st : RecipeStore) (cityId recipeId : String)
    (cityFetch : Fetch Unit) : RecipeStore × DeleteReply :=
  match cityFetch with
  | .notFound => (st, .err 404 "City not found")
  | .otherErr => (st, .err 500 "Internal server error")
  | .ok _ =>
    match st.getById recipeId with
    | none => (st, .err 404 "Recipe not found")
    | some r =>
      if r.cityId != cityId then (st, .err 404 "Recipe not found for this city")
      else ((st.deleteById recipeId).1, .noContent)

/-- One store-affecting request, for reasoning about arbitrary
interleavings of `add` and `deleteById`. -/
inductive StoreOp : Type where
  | add (cityId : String) (content : JVal)
  | del (id : String)

/-- Apply one operation to the store. -/
def applyOp (st : RecipeStore) : StoreOp → RecipeStore
  | .add c x => (st.add c x).1
  | .del i => (st.deleteById i).1

/-- Apply a sequence of operations. -/
def applyOps (st : RecipeStore) (ops : List StoreOp) : RecipeStore :=
  ops.foldl applyOp st

/-- The ids handed out by the `add` operations of a run, in order. -/
def runIds (st : RecipeStore) : List StoreOp → List Nat
  | [] => []
  | .add c x :: ops =>
    let res := st.add c x
    res.2.id :: runIds res.1 ops
  | .del i :: ops => runIds (st.deleteById i).1 ops

/-- Number of `add` operations in a sequence. -/
def countAdds : List StoreOp → Nat
  | [] => 0
  | .add _ _ :: ops => countAdds ops + 1
  | .del _ :: ops => countAdds ops

/-- Store invariant: every stored id is bounded by `lastId`, and ids are
strictly increasing along the array. -/
def storeInv (st : RecipeStore) : Prop :=
  (∀ r ∈ st.recipes, r.id ≤ st.lastId) ∧
    st.recipes.Pairwise (fun a b => a.id < b.id)

/-! ## Store invariant lemmas (shared helpers) -/

lemma deleteById_fst_lastId (st : RecipeStore) (s : String) :
    (st.deleteById s).1.lastId = st.lastId := by
  unfold RecipeStore.deleteById
  cases st.recipes.findIdx? (fun r => jsParseInt s == some (r.id : Int)) <;> rfl

lemma deleteById_fst_recipes_sublist (st : RecipeStore) (s : String) :
    (st.deleteById s).1.recipes.Sublist st.recipes := by
  unfold RecipeStore.deleteById
  cases st.recipes.findIdx? (fun r => jsParseInt s == some (r.id : Int)) with
  | none => exact List.Sublist.refl _
  | some i => exact List.eraseIdx_sublist _ _

lemma storeInv_add (st : RecipeStore) (c : String) (x : JVal)
    (h : storeInv st) : storeInv (st.add c x).1 := by
  obtain ⟨hb, hp⟩ := h
  constructor
  · show ∀ r ∈ st.recipes ++ [⟨st.lastId + 1, x, c⟩], r.id ≤ st.lastId + 1
    intro r hr
    rcases List.mem_append.mp hr with hr | hr
    · exact Nat.le_succ_of_le (hb r hr)
    · simp only [List.mem_singleton] at hr
      subst hr
      exact Nat.le_refl _
  · show List.Pairwise _ (st.recipes ++ [⟨st.lastId + 1, x, c⟩])
    rw [List.pairwise_append]
    refine ⟨hp, List.pairwise_singleton _ _, ?_⟩
    intro a ha b hb2
    simp only [List.mem_singleton] at hb2
    subst hb2
    exact Nat.lt_succ_of_le (hb a ha)

lemma storeInv_del (st : RecipeStore) (s : String)
    (h : storeInv st) : storeInv (st.deleteById s).1 := by
  obtain ⟨hb, hp⟩ := h
  have hs := deleteById_fst_recipes_sublist st s
  constructor
  · intro r hr
    rw [deleteById_fst_lastId]
    exact hb r (hs.subset hr)
  · exact hp.sublist hs

lemma storeInv_applyOp (st : RecipeStore) (op : StoreOp)
    (h : storeInv st) : storeInv (applyOp st op) := by
  cases op with
  | add c x => exact storeInv_add st c x h
  | del i => exact storeInv_del st i h

lemma applyOp_lastId_le (st : RecipeStore) (op : StoreOp) :
    st.lastId ≤ (applyOp st op).lastId := by
  cases op with
  | add c x => exact Nat.le_succ _
  | del i => rw [applyOp, deleteById_fst_lastId]

lemma storeInv_applyOps (ops : List StoreOp) :
    ∀ st : RecipeStore, storeInv st → storeInv (applyOps st ops) := by
  induction ops with
  | nil => intro st h; exact h
  | cons op ops ih =>
    intro st h
    exact ih (applyOp st op) (storeInv_applyOp st op h)

lemma storeInv_empty : storeInv RecipeStore.empty :=
  ⟨fun r hr => absurd hr (List.not_mem_nil r), List.Pairwise.nil⟩

lemma runIds_eq (ops : List StoreOp) :
    ∀ st : RecipeStore, runIds st ops = List.range' (st.lastId + 1) (countAdds ops) := by
  induction ops with
  | nil => intro st; rfl
  | cons op ops ih =>
    intro st
    cases op with
    | add c x =>
      show ((st.add c x).2.id :: runIds (st.add c x).1 ops) = _
      rw [ih, countAdds, List.range'_succ]
      rfl
    | del i =>
      show runIds (st.deleteById i).1 ops = _
      rw [ih, deleteById_fst_lastId, countAdds]

/-- C1: running any interleaving of add/deleteById from the empty store,
the ids assigned by add are exactly 1, 2, …, (number of adds), in order —
strictly increasing from 1 and never reused even across deletions — and
every reachable store satisfies the invariant that each stored id is
bounded by lastId, which itself never decreases under any operation. -/
theorem recipe_ids_fresh (ops : List StoreOp) :
    runIds RecipeStore.empty ops = List.range' 1 (countAdds ops)
      ∧ storeInv (applyOps RecipeStore.empty ops)
      ∧ ∀ (st : RecipeStore) (op : StoreOp), st.lastId ≤ (applyOp st op).lastId :=
  ⟨runIds_eq ops RecipeStore.empty,
   storeInv_applyOps ops RecipeStore.empty storeInv_empty,
   applyOp_lastId_le⟩

/-! ## City-shape validation (C7) -/

/-- Modelled from the spec's words for the refinement comparison: "requires
coordinates to be two numeric values, population to be an integer, knownFor
to be a sequence". -/
def cityShapePerSpec (cd : JVal) : Prop :=
  (∃ a b : Rat, cd.get "coordinates" = .varr [.vnum a, .vnum b])
    ∧ (∃ p : Rat, cd.get "population" = .vnum p ∧ p.den = 1)
    ∧ (∃ xs : List JVal, cd.get "knownFor" = .varr xs)

lemma coords_check_iff (v : JVal) :
    (isArray v && (match v with | .varr xs => xs.length == 2 | _ => false)
        && isNum (arrIdx v 0) && isNum (arrIdx v 1)) = true
      ↔ ∃ a b : Rat, v = .varr [.vnum a, .vnum b] := by
  constructor
  · intro h
    cases v with
    | varr xs =>
      cases xs with
      | nil => simp [isArray, arrIdx, isNum] at h
      | cons x0 t =>
        cases t with
        | nil => simp [isArray, arrIdx, isNum] at h
        | cons x1 t2 =>
          cases t2 with
          | nil =>
            cases x0 <;> cases x1 <;>
              simp_all [isArray, arrIdx, isNum]
          | cons x2 t3 => simp [isArray, arrIdx, isNum] at h
    | vnum q => simp [isArray] at h
    | vstr s => simp [isArray] at h
    | vbool b => simp [isArray] at h
    | vnull => simp [isArray] at h
    | vundefined => simp [isArray] at h
    | vobj fs => simp [isArray] at h
  · rintro ⟨a, b, rfl⟩
    rfl

lemma pop_check_iff (v : JVal) :
    (isNum v && ratIsInt (asNum v)) = true
      ↔ ∃ p : Rat, v = .vnum p ∧ p.den = 1 := by
  constructor
  · intro h
    cases v <;> simp_all [isNum, asNum, ratIsInt]
  · rintro ⟨p, rfl, hp⟩
    simp [isNum, asNum, ratIsInt, hp]

lemma knownfor_check_iff (v : JVal) :
    isArray v = true ↔ ∃ xs : List JVal, v = .varr xs := by
  constructor
  · intro h
    cases v <;> simp_all [isArray]
  · rintro ⟨xs, rfl⟩
    rfl

/-- C7: city-shape validation succeeds exactly when coordinates are two
numeric values, population is an integer and knownFor is a sequence (the
spec-side predicate `cityShapePerSpec`), and on success it produces the
coerced document: the two coordinates as numbers, population as the exact
integer, knownFor entries coerced to text. -/
theorem validateCityShape_correct (cd : JVal) :
    ((validateCityShape cd).isSome ↔ cityShapePerSpec cd)
      ∧ ∀ (a b p : Rat) (xs : List JVal),
          cd.get "coordinates" = .varr [.vnum a, .vnum b] →
          cd.get "population" = .vnum p → p.den = 1 →
          cd.get "knownFor" = .varr xs →
          validateCityShape cd = some ⟨[a, b], p.num, xs.map jsToString⟩ := by
  constructor
  · unfold validateCityShape cityShapePerSpec
    rw [← coords_check_iff, ← pop_check_iff, ← knownfor_check_iff]
    split
    · next hc =>
      simp only [Bool.not_eq_true'] at hc
      simp [hc]
    · next hc =>
      simp only [Bool.not_eq_eq_eq_not, Bool.not_true, Bool.not_eq_false] at hc
      split
      · next hp =>
        simp only [Bool.not_eq_true'] at hp
        simp [hc, hp]
      · next hp =>
        simp only [Bool.not_eq_eq_eq_not, Bool.not_true, Bool.not_eq_false] at hp
        split
        · next hk =>
          simp only [Bool.not_eq_true'] at hk
          simp [hc, hp, hk]
        · next hk =>
          simp only [Bool.not_eq_eq_eq_not, Bool.not_true, Bool.not_eq_false] at hk
          simp [hc, hp, hk]
  · intro a b p xs hco hpo hpden hkn
    unfold validateCityShape
    rw [hco, hpo, hkn]
    simp [isArray, arrIdx, isNum, asNum, ratIsInt, jsNumToInt, hpden]

/-- Concrete evaluation for `validateCityShape_correct`: a payload with
coordinates `[1, 2]`, population `1000`, knownFor `[]`. -/
def cdOk : JVal :=
  .vobj [("coordinates", .varr [.vnum 1, .vnum 2]),
         ("population", .vnum 1000),
         ("knownFor", .varr [])]

theorem validateCityShape_correct_witness :
    ((validateCityShape cdOk).isSome ↔ cityShapePerSpec cdOk)
      ∧ validateCityShape cdOk = some ⟨[1, 2], 1000, []⟩ := by
  have h := validateCityShape_correct cdOk
  exact ⟨h.1, h.2 1 2 1000 [] rfl rfl rfl rfl⟩

/-! ## GET infos success shape (C2) -/

lemma validateCityShape_some_coords (cd : JVal) (ci : CityInfo)
    (h : validateCityShape cd = some ci) : ∃ a b : Rat, ci.coordinates = [a, b] := by
  unfold validateCityShape at h
  split at h
  next => exact absurd h (by simp)
  next =>
    split at h
    next => exact absurd h (by simp)
    next =>
      split at h
      next => exact absurd h (by simp)
      next =>
        cases h
        exact ⟨_, _, rfl⟩

/-- C2: whenever the infos handler answers 200, the document has a
two-element numeric coordinates array, an integer population, and exactly
two weather entries, the first for "today" and the second for
"tomorrow". -/
theorem infos_success_shape (st : RecipeStore) (c : String)
    (f w : Fetch JVal) (resp : InfosResponse)
    (h : getCityInfos st c f w = .ok resp) :
    (∃ a b : Rat, resp.coordinates = [a, b])
      ∧ (∃ p : Int, resp.population = p)
      ∧ ∃ e1 e2 : WeatherEntry, resp.weatherPredictions = [e1, e2]
          ∧ e1.when = "today" ∧ e2.when = "tomorrow" := by
  cases f with
  | notFound => simp [getCityInfos] at h
  | otherErr => simp [getCityInfos] at h
  | ok cd =>
    simp only [getCityInfos] at h
    split at h
    · simp at h
    · rename_i city hv
      split at h
      · simp at h
      · simp at h
      · rename_i wd
        split at h
        · simp at h
        · rename_i tMin tMax tmMin tmMax hw
          simp only [InfosReply.ok.injEq] at h
          subst h
          refine ⟨validateCityShape_some_coords cd city hv, ⟨city.population, rfl⟩, ?_⟩
          exact ⟨_, _, rfl, rfl, rfl⟩

/-- Concrete weather payload for the witnesses. -/
def wOk : JVal :=
  .vobj [("today", .vobj [("min", .vnum 1), ("max", .vnum 2)]),
         ("tomorrow", .vobj [("min", .vnum 0), ("max", .vnum 3)])]

/-- The 200 document produced for `cdOk`/`wOk` on an empty store. -/
def respOk : InfosResponse :=
  ⟨[1, 2], 1000, [], [⟨"today", 1, 2⟩, ⟨"tomorrow", 0, 3⟩], []⟩

theorem infos_success_shape_witness :
    getCityInfos RecipeStore.empty "nice" (.ok cdOk) (.ok wOk) = .ok respOk
      ∧ (∃ a b : Rat, respOk.coordinates = [a, b])
      ∧ (∃ p : Int, respOk.population = p)
      ∧ ∃ e1 e2 : WeatherEntry, respOk.weatherPredictions = [e1, e2]
          ∧ e1.when = "today" ∧ e2.when = "tomorrow" := by
  have hres : getCityInfos RecipeStore.empty "nice" (.ok cdOk) (.ok wOk) = .ok respOk := by
    rfl
  have h := infos_success_shape RecipeStore.empty "nice" (.ok cdOk) (.ok wOk) respOk hres
  exact ⟨hres, h⟩

/-! ## GET infos error mapping (C6) -/

/-- C6: the infos handler maps a not-found city lookup to 404 "City not
found"; any other upstream failure (city or weather, network or
non-success status) and any shape-validation failure to 500 "Internal
server error"; and these two are the only error replies it can ever
produce. -/
theorem infos_error_mapping (st : RecipeStore) (c : String)
    (cd w : JVal) (wf : Fetch JVal) :
    getCityInfos st c .notFound wf = .err 404 "City not found"
      ∧ getCityInfos st c .otherErr wf = .err 500 "Internal server error"
      ∧ (validateCityShape cd = none →
          getCityInfos st c (.ok cd) wf = .err 500 "Internal server error")
      ∧ getCityInfos st c (.ok cd) .notFound = .err 500 "Internal server error"
      ∧ getCityInfos st c (.ok cd) .otherErr = .err 500 "Internal server error"
      ∧ (validateWeatherShape w = none →
          getCityInfos st c (.ok cd) (.ok w) = .err 500 "Internal server error")
      ∧ ∀ (f g : Fetch JVal) (s : Nat) (m : String),
          getCityInfos st c f g = .err s m →
          (s = 404 ∧ m = "City not found") ∨ (s = 500 ∧ m = "Internal server error") := by
  refine ⟨rfl, rfl, ?_, ?_, ?_, ?_, ?_⟩
  · intro hv
    simp [getCityInfos, hv]
  · cases hv : validateCityShape cd <;> simp [getCityInfos, hv]
  · cases hv : validateCityShape cd <;> simp [getCityInfos, hv]
  · intro hw
    cases hv : validateCityShape cd <;> simp [getCityInfos, hv, hw]
  · intro f g s m h
    cases f with
    | notFound =>
      simp only [getCityInfos, InfosReply.err.injEq] at h
      exact Or.inl ⟨h.1.symm, h.2.symm⟩
    | otherErr =>
      simp only [getCityInfos, InfosReply.err.injEq] at h
      exact Or.inr ⟨h.1.symm, h.2.symm⟩
    | ok cd2 =>
      simp only [getCityInfos] at h
      split at h
      · simp only [InfosReply.err.injEq] at h
        exact Or.inr ⟨h.1.symm, h.2.symm⟩
      · split at h
        · simp only [InfosReply.err.injEq] at h
          exact Or.inr ⟨h.1.symm, h.2.symm⟩
        · simp only [InfosReply.err.injEq] at h
          exact Or.inr ⟨h.1.symm, h.2.symm⟩
        · split at h
          · simp only [InfosReply.err.injEq] at h
            exact Or.inr ⟨h.1.symm, h.2.symm⟩
          · simp at h

theorem infos_error_mapping_witness :
    getCityInfos RecipeStore.empty "nice" .notFound .notFound = .err 404 "City not found"
      ∧ getCityInfos RecipeStore.empty "nice" (.ok .vnull) .notFound
          = .err 500 "Internal server error"
      ∧ getCityInfos RecipeStore.empty "nice" (.ok cdOk) (.ok .vnull)
          = .err 500 "Internal server error"
      ∧ ((404 = 404 ∧ "City not found" = "City not found")
          ∨ (404 = 500 ∧ "City not found" = "Internal server error")) := by
  have h := infos_error_mapping RecipeStore.empty "nice" JVal.vnull JVal.vnull Fetch.notFound
  have h2 := infos_error_mapping RecipeStore.empty "nice" cdOk JVal.vnull Fetch.notFound
  exact ⟨h.1, h.2.2.1 rfl, h2.2.2.2.2.2.1 rfl,
         h.2.2.2.2.2.2 .notFound .notFound 404 "City not found" h.1⟩

/-! ## POST recipe validation (C3, C4, C10) -/

/-- C3: the POST content checks run in the fixed order absent/empty,
length < 10, length > 2000, each producing its exact 400 message, and the
outcome is the same for every fetch-oracle value — the 400 is decided
before any upstream call, with the store untouched. -/
theorem post_validation_order (st : RecipeStore) (c : String) (body : JVal)
    (f : Fetch Unit) :
    (jsTruthy (body.get "content") = false →
        postRecipe st c body f = (st, .err 400 "Content is required"))
      ∧ (jsTruthy (body.get "content") = true →
          jsLtNum (lengthProp (body.get "content")) 10 = true →
          postRecipe st c body f
            = (st, .err 400 "Content is too short (minimum 10 characters)"))
      ∧ (jsTruthy (body.get "content") = true →
          jsLtNum (lengthProp (body.get "content")) 10 = false →
          jsGtNum (lengthProp (body.get "content")) 2000 = true →
          postRecipe st c body f
            = (st, .err 400 "Content is too long (maximum 2000 characters)")) := by
  refine ⟨?_, ?_, ?_⟩
  · intro h1
    simp [postRecipe, h1]
  · intro h1 h2
    simp [postRecipe, h1, h2]
  · intro h1 h2 h3
    simp [postRecipe, h1, h2, h3]

theorem post_validation_order_witness :
    postRecipe RecipeStore.empty "nice" (.vobj []) .otherErr
        = (RecipeStore.empty, .err 400 "Content is required")
      ∧ postRecipe RecipeStore.empty "nice" (.vobj [("content", .vstr "short")]) .otherErr
          = (RecipeStore.empty, .err 400 "Content is too short (minimum 10 characters)")
      ∧ postRecipe RecipeStore.empty "nice"
            (.vobj [("content", .varr (List.replicate 2001 .vnull))]) .otherErr
          = (RecipeStore.empty, .err 400 "Content is too long (maximum 2000 characters)") := by
  refine ⟨(post_validation_order RecipeStore.empty "nice" (.vobj []) .otherErr).1 rfl,
          (post_validation_order RecipeStore.empty "nice"
            (.vobj [("content", .vstr "short")]) .otherErr).2.1 rfl rfl, ?_⟩
  have h := (post_validation_order RecipeStore.empty "nice"
    (.vobj [("content", .varr (List.replicate 2001 .vnull))]) .otherErr).2.2
  have hlen : lengthProp ((JVal.vobj [("content", .varr (List.replicate 2001 .vnull))]).get
      "content") = some 2001 := by
    show lengthProp (.varr (List.replicate 2001 .vnull)) = some 2001
    rw [lengthProp, List.length_replicate]
  refine h rfl ?_ ?_
  · rw [hlen]
    rfl
  · rw [hlen]
    rfl

/-- C4: with valid content, a not-found city lookup yields 404 "City not
found" with the store exactly unchanged; the store changes only on the
success path, which appends the new recipe, bumps lastId, and replies 201
with its id and content. -/
theorem post_city_notfound_unchanged (st : RecipeStore) (c : String) (body : JVal)
    (h1 : jsTruthy (body.get "content") = true)
    (h2 : jsLtNum (lengthProp (body.get "content")) 10 = false)
    (h3 : jsGtNum (lengthProp (body.get "content")) 2000 = false) :
    postRecipe st c body .notFound = (st, .err 404 "City not found")
      ∧ (∀ f : Fetch Unit, f ≠ .ok () → (postRecipe st c body f).1 = st)
      ∧ postRecipe st c body (.ok ())
          = (⟨st.recipes ++ [⟨st.lastId + 1, body.get "content", c⟩], st.lastId + 1⟩,
             .created (st.lastId + 1) (body.get "content")) := by
  refine ⟨?_, ?_, ?_⟩
  · simp [postRecipe, h1, h2, h3]
  · intro f hf
    cases f with
    | ok u => cases u; exact absurd rfl hf
    | notFound => simp [postRecipe, h1, h2, h3]
    | otherErr => simp [postRecipe, h1, h2, h3]
  · simp [postRecipe, h1, h2, h3, RecipeStore.add]

theorem post_city_notfound_unchanged_witness :
    postRecipe RecipeStore.empty "nice" (.vobj [("content", .vstr "0123456789")]) .notFound
        = (RecipeStore.empty, .err 404 "City not found")
      ∧ postRecipe RecipeStore.empty "nice" (.vobj [("content", .vstr "0123456789")]) (.ok ())
          = (⟨[⟨1, .vstr "0123456789", "nice"⟩], 1⟩, .created 1 (.vstr "0123456789")) := by
  have h := post_city_notfound_unchanged RecipeStore.empty "nice"
    (.vobj [("content", .vstr "0123456789")]) rfl rfl rfl
  exact ⟨h.1, h.2.2⟩

/-- C10: the POST checks gate on JS truthiness and the `.length`
property, so a truthy non-string content without a length — a JSON
number — passes all three checks and is inserted and echoed in the 201;
conversely a 400 arises only from a falsy content or a length below 10
or above 2000. -/
theorem post_truthiness_gate (st : RecipeStore) (c : String) (body : JVal)
    (f : Fetch Unit) (m : String) :
    jsTruthy (.vnum 5) = true
      ∧ lengthProp (.vnum 5) = none
      ∧ postRecipe st c (.vobj [("content", .vnum 5)]) (.ok ())
          = (⟨st.recipes ++ [⟨st.lastId + 1, .vnum 5, c⟩], st.lastId + 1⟩,
             .created (st.lastId + 1) (.vnum 5))
      ∧ ((postRecipe st c body f).2 = .err 400 m →
          jsTruthy (body.get "content") = false
            ∨ jsLtNum (lengthProp (body.get "content")) 10 = true
            ∨ jsGtNum (lengthProp (body.get "content")) 2000 = true) := by
  refine ⟨rfl, rfl, by simp [postRecipe, JVal.get, jsTruthy, lengthProp, jsLtNum, jsGtNum,
    RecipeStore.add], ?_⟩
  intro h
  by_cases hb1 : jsTruthy (body.get "content") = true
  · right
    by_cases hb2 : jsLtNum (lengthProp (body.get "content")) 10 = true
    · exact Or.inl hb2
    · right
      by_cases hb3 : jsGtNum (lengthProp (body.get "content")) 2000 = true
      · exact hb3
      · exfalso
        rw [Bool.not_eq_true] at hb2 hb3
        cases f with
        | ok u => simp [postRecipe, hb1, hb2, hb3] at h
        | notFound => simp [postRecipe, hb1, hb2, hb3] at h
        | otherErr => simp [postRecipe, hb1, hb2, hb3] at h
  · rw [Bool.not_eq_true] at hb1
    exact Or.inl hb1

theorem post_truthiness_gate_witness :
    jsTruthy (.vnum 5) = true
      ∧ postRecipe RecipeStore.empty "nice" (.vobj [("content", .vnum 5)]) (.ok ())
          = (⟨[⟨1, .vnum 5, "nice"⟩], 1⟩, .created 1 (.vnum 5))
      ∧ (jsTruthy (JVal.vnull.get "content") = false
          ∨ jsLtNum (lengthProp (JVal.vnull.get "content")) 10 = true
          ∨ jsGtNum (lengthProp (JVal.vnull.get "content")) 2000 = true) := by
  have h := post_truthiness_gate RecipeStore.empty "nice" JVal.vnull Fetch.otherErr
    "Content is required"
  exact ⟨h.1, h.2.2.1, h.2.2.2 rfl⟩

/-! ## DELETE recipe city mismatch (C5) -/

/-- A store holding one recipe, id 1, belonging to city "paris". -/
def stMismatch : RecipeStore := ⟨[⟨1, .vstr "0123456789", "paris"⟩], 1⟩

/-- C5 counterexample: with the city existing, deleting recipe id 1 under
path city "lyon" (the recipe belongs to "paris") and deleting the wholly
unknown id 2 both return 404, but with different bodies — "Recipe not
found for this city" versus "Recipe not found" — so the two responses are
distinguishable by the caller, contrary to the claim. -/
theorem delete_mismatch_distinguishable :
    (deleteRecipe stMismatch "lyon" "1" (.ok ())).2
        = .err 404 "Recipe not found for this city"
      ∧ (deleteRecipe stMismatch "lyon" "2" (.ok ())).2 = .err 404 "Recipe not found"
      ∧ (deleteRecipe stMismatch "lyon" "1" (.ok ())).2
          ≠ (deleteRecipe stMismatch "lyon" "2" (.ok ())).2 := by
  refine ⟨rfl, rfl, ?_⟩
  decide

/-- C5 amended: a recipe id present with a non-matching stored cityId
gets 404 "Recipe not found for this city", a wholly unknown id gets 404
"Recipe not found" — the same 404 status but different body messages —
and in both cases the store is returned unchanged (no deletion). -/
theorem delete_mismatch_404 (st : RecipeStore) (c rid : String) (r : Recipe) :
    (st.getById rid = some r → r.cityId ≠ c →
        deleteRecipe st c rid (.ok ()) = (st, .err 404 "Recipe not found for this city"))
      ∧ (st.getById rid = none →
          deleteRecipe st c rid (.ok ()) = (st, .err 404 "Recipe not found")) := by
  constructor
  · intro hg hne
    simp [deleteRecipe, hg, hne]
  · intro hg
    simp [deleteRecipe, hg]

theorem delete_mismatch_404_witness :
    deleteRecipe stMismatch "lyon" "1" (.ok ())
        = (stMismatch, .err 404 "Recipe not found for this city")
      ∧ deleteRecipe stMismatch "lyon" "2" (.ok ())
          = (stMismatch, .err 404 "Recipe not found") := by
  have h1 := (delete_mismatch_404 stMismatch "lyon" "1"
    ⟨1, .vstr "0123456789", "paris"⟩).1 rfl (by decide)
  have h2 := (delete_mismatch_404 stMismatch "lyon" "2"
    ⟨1, .vstr "0123456789", "paris"⟩).2 rfl
  exact ⟨h1, h2⟩

/-! ## parseInt round trip (for C8, C9) -/

lemma digitChar_isDigit : ∀ m : Nat, m < 10 → (Nat.digitChar m).isDigit = true := by
  decide

lemma digitChar_toNat : ∀ m : Nat, m < 10 → (Nat.digitChar m).toNat - 48 = m := by
  decide

lemma natDigitChars_ne_nil (n : Nat) : natDigitChars n ≠ [] := by
  rw [natDigitChars]
  split
  · simp
  · simp

lemma natDigitChars_all_digits (n : Nat) :
    ∀ c ∈ natDigitChars n, c.isDigit = true := by
  induction n using Nat.strong_induction_on with
  | _ n ih =>
    rw [natDigitChars]
    split
    · next h =>
      intro c hc
      simp only [List.mem_singleton] at hc
      subst hc
      exact digitChar_isDigit n h
    · next h =>
      intro c hc
      rcases List.mem_append.mp hc with hc | hc
      · exact ih (n / 10) (Nat.div_lt_self (by omega) (by omega)) c hc
      · simp only [List.mem_singleton] at hc
        subst hc
        exact digitChar_isDigit (n % 10) (Nat.mod_lt n (by omega))

lemma digitsVal_foldl_natDigitChars (n : Nat) :
    ∀ a : Nat, (natDigitChars n).foldl (fun a c => 10 * a + (c.toNat - 48)) a
      = a * 10 ^ (natDigitChars n).length + n := by
  induction n using Nat.strong_induction_on with
  | _ n ih =>
    intro a
    rw [natDigitChars]
    split
    · next h =>
      simp only [List.foldl_cons, List.foldl_nil, List.length_singleton]
      rw [digitChar_toNat n h, pow_one]
      omega
    · next h =>
      rw [List.foldl_append, List.foldl_cons, List.foldl_nil,
        ih (n / 10) (Nat.div_lt_self (by omega) (by omega)) a,
        digitChar_toNat (n % 10) (Nat.mod_lt n (by omega)),
        List.length_append, List.length_singleton, pow_succ, ← mul_assoc]
      have hmod := Nat.div_add_mod n 10
      generalize a * 10 ^ (natDigitChars (n / 10)).length = t
      omega

lemma digitsVal_natDigitChars (n : Nat) : digitsVal (natDigitChars n) = n := by
  unfold digitsVal
  rw [digitsVal_foldl_natDigitChars n 0]
  simp

lemma takeWhile_of_all {α : Type} (p : α → Bool) :
    ∀ l : List α, (∀ c ∈ l, p c = true) → l.takeWhile p = l := by
  intro l
  induction l with
  | nil => intro _; rfl
  | cons c cs ih =>
    intro h
    have hcs := ih fun d hd => h d (List.mem_cons_of_mem c hd)
    simp [List.takeWhile_cons, h c (List.mem_cons_self c cs), hcs]

lemma isDigit_not_space (c : Char) (h : c.isDigit = true) : isJsSpace c = false := by
  by_contra hx
  rw [← ne_eq, Bool.ne_false_iff] at hx
  unfold isJsSpace at hx
  simp only [Bool.or_eq_true, beq_iff_eq] at hx
  rcases hx with ((rfl | rfl) | rfl) | rfl <;> exact absurd h (by decide)

lemma parseDecDigits_all_digits (l : List Char) (hne : l ≠ [])
    (hd : ∀ c ∈ l, c.isDigit = true) :
    parseDecDigits l = some ((digitsVal l : Nat) : Int) := by
  unfold parseDecDigits
  rw [takeWhile_of_all Char.isDigit l hd]
  rw [if_neg]
  simp [List.isEmpty_iff, hne]

lemma isDigit_ne_chars (c : Char) (h : c.isDigit = true) :
    c ≠ '-' ∧ c ≠ '+' ∧ c ≠ 'x' ∧ c ≠ 'X' := by
  refine ⟨?_, ?_, ?_, ?_⟩ <;> intro hc <;> subst hc <;> revert h <;> decide

lemma jsParseIntNoSign_all_digits (l : List Char) (hne : l ≠ [])
    (hd : ∀ c ∈ l, c.isDigit = true) :
    jsParseIntNoSign l = some ((digitsVal l : Nat) : Int) := by
  match l with
  | [] => exact absurd rfl hne
  | [c] =>
    show parseDecDigits [c] = _
    exact parseDecDigits_all_digits [c] (by simp) hd
  | c0 :: c1 :: rest =>
    show (if c0 = '0' ∧ (c1 = 'x' ∨ c1 = 'X') then _ else _) = _
    have h1 := isDigit_ne_chars c1 (hd c1 (by simp))
    rw [if_neg (by tauto)]
    exact parseDecDigits_all_digits _ (by simp) hd

/-- The decimal string form of a natural number parses back to it with
`parseInt` — the coercion `getById`/`deleteById` apply to path
parameters. -/
lemma jsParseInt_natDecimalRepr (n : Nat) :
    jsParseInt (natDecimalRepr n) = some (n : Int) := by
  unfold jsParseInt natDecimalRepr
  show jsParseIntSigned ((natDigitChars n).dropWhile isJsSpace) = _
  obtain ⟨c, cs, hcons⟩ := List.exists_cons_of_ne_nil (natDigitChars_ne_nil n)
  have hall := natDigitChars_all_digits n
  have hcdig : c.isDigit = true := by
    apply hall
    rw [hcons]
    exact List.mem_cons_self c cs
  rw [hcons, List.dropWhile_cons, isDigit_not_space c hcdig]
  simp only [Bool.false_eq_true, if_false]
  show jsParseIntSigned (c :: cs) = _
  have hc := isDigit_ne_chars c hcdig
  rw [jsParseIntSigned, if_neg hc.1, if_neg hc.2.1]
  rw [jsParseIntNoSign_all_digits (c :: cs) (by simp) (by rw [← hcons]; exact hall)]
  rw [← hcons, digitsVal_natDigitChars]

/-! ## getById/deleteById id coercion (C9) -/

lemma find?_congr_pred {α : Type} (l : List α) (p q : α → Bool)
    (h : ∀ a ∈ l, p a = q a) : l.find? p = l.find? q := by
  induction l with
  | nil => rfl
  | cons a as ih =>
    have ha := h a (List.mem_cons_self a as)
    have has := ih fun b hb => h b (List.mem_cons_of_mem a hb)
    cases hqa : q a <;> simp [List.find?_cons, ha, hqa, has]

lemma getById_pred_eq (n : Nat) (r : Recipe) :
    (jsParseInt (natDecimalRepr n) == some (r.id : Int)) = (r.id == n) := by
  rw [jsParseInt_natDecimalRepr n]
  by_cases hrn : r.id = n
  · subst hrn
    simp
  · have h1 : (r.id == n) = false := by simp [hrn]
    have h2 : ((some (n : Int) : Option Int) == some (r.id : Int)) = false := by
      rw [beq_eq_false_iff_ne]
      intro hco
      exact hrn (by exact_mod_cast (Option.some.inj hco).symm)
    rw [h1, h2]

/-- C9: `getById`/`deleteById` compare stored ids against `parseInt` of
their argument, so the decimal string form of an id (as it arrives in a
path parameter) matches the stored recipe with that numeric id, while any
argument whose parse hits no stored id — including non-numeric text,
which parses to NaN — makes `getById` return absent and `deleteById`
return false with the store untouched. -/
theorem getById_parseInt_semantics (st : RecipeStore) (n : Nat) (s : String)
    (h : ∀ r ∈ st.recipes, jsParseInt s ≠ some (r.id : Int)) :
    jsParseInt (natDecimalRepr n) = some (n : Int)
      ∧ st.getById (natDecimalRepr n) = st.recipes.find? (fun r => r.id == n)
      ∧ st.getById s = none
      ∧ st.deleteById s = (st, false) := by
  refine ⟨jsParseInt_natDecimalRepr n, ?_, ?_, ?_⟩
  · unfold RecipeStore.getById
    exact find?_congr_pred st.recipes _ _ fun r _ => getById_pred_eq n r
  · unfold RecipeStore.getById
    rw [List.find?_eq_none]
    intro r hr
    simpa using h r hr
  · unfold RecipeStore.deleteById
    have hnone : st.recipes.findIdx? (fun r => jsParseInt s == some (r.id : Int)) = none := by
      rw [List.findIdx?_eq_none_iff]
      intro r hr
      simpa using h r hr
    rw [hnone]

theorem getById_parseInt_semantics_witness :
    jsParseInt (natDecimalRepr 1) = some (1 : Int)
      ∧ stMismatch.getById (natDecimalRepr 1)
          = stMismatch.recipes.find? (fun r => r.id == 1)
      ∧ stMismatch.getById "zzz" = none
      ∧ stMismatch.deleteById "zzz" = (stMismatch, false) := by
  have hnan : ∀ r ∈ stMismatch.recipes, jsParseInt "zzz" ≠ some (r.id : Int) := by
    intro r hr
    simp only [stMismatch, List.mem_singleton] at hr
    subst hr
    decide
  exact getById_parseInt_semantics stMismatch 1 "zzz" hnan

/-! ## Delete of a just-created recipe (C8) -/

lemma find?_append_fresh {α : Type} (l1 : List α) (r : α) (p : α → Bool)
    (h1 : ∀ a ∈ l1, p a = false) (hr : p r = true) :
    (l1 ++ [r]).find? p = some r := by
  induction l1 with
  | nil => simp [List.find?_cons, hr]
  | cons a as ih =>
    have ha := h1 a (List.mem_cons_self a as)
    have has := ih fun b hb => h1 b (List.mem_cons_of_mem a hb)
    simp [List.find?_cons, ha, has]

lemma findIdx?_append_fresh {α : Type} (l1 : List α) (r : α) (p : α → Bool)
    (h1 : ∀ a ∈ l1, p a = false) (hr : p r = true) :
    (l1 ++ [r]).findIdx? p = some l1.length := by
  induction l1 with
  | nil => simp [List.findIdx?_cons, hr]
  | cons a as ih =>
    have ha := h1 a (List.mem_cons_self a as)
    have has := ih fun b hb => h1 b (List.mem_cons_of_mem a hb)
    simp [List.findIdx?_cons, ha, has]

lemma eraseIdx_append_length {α : Type} (l1 : List α) (r : α) :
    (l1 ++ [r]).eraseIdx l1.length = l1 := by
  induction l1 with
  | nil => rfl
  | cons a as ih => simp [List.eraseIdx, ih]

lemma deleteRecipe_found (st : RecipeStore) (c rid : String) (r : Recipe)
    (hg : st.getById rid = some r) (hc : r.cityId = c) :
    deleteRecipe st c rid (.ok ()) = ((st.deleteById rid).1, .noContent) := by
  simp [deleteRecipe, hg, hc]

lemma deleteRecipe_notFound (st : RecipeStore) (c rid : String)
    (hg : st.getById rid = none) :
    deleteRecipe st c rid (.ok ()) = (st, .err 404 "Recipe not found") := by
  simp [deleteRecipe, hg]

/-- C8: deleting a recipe right after creating it, with the city
existing upstream and under the recipe's own city, replies 204 and
restores the recipe array exactly (lastId stays bumped, so the id is not
reused); any 200 info document computed afterwards for that city no
longer lists the recipe's id; and a second delete of the same id replies
404 "Recipe not found" leaving the store untouched. -/
theorem delete_after_add (st : RecipeStore) (c : String) (x : JVal)
    (f w : Fetch JVal) (resp : InfosResponse)
    (hinv : ∀ r ∈ st.recipes, r.id ≤ st.lastId)
    (hresp : getCityInfos ⟨st.recipes, st.lastId + 1⟩ c f w = .ok resp) :
    deleteRecipe (st.add c x).1 c (natDecimalRepr (st.add c x).2.id) (.ok ())
        = (⟨st.recipes, st.lastId + 1⟩, .noContent)
      ∧ (∀ ro ∈ resp.recipes, ro.id ≠ (st.add c x).2.id)
      ∧ deleteRecipe ⟨st.recipes, st.lastId + 1⟩ c (natDecimalRepr (st.add c x).2.id) (.ok ())
          = (⟨st.recipes, st.lastId + 1⟩, .err 404 "Recipe not found") := by
  have hpred : ∀ r' ∈ st.recipes,
      (jsParseInt (natDecimalRepr (st.lastId + 1)) == some (r'.id : Int)) = false := by
    intro r' hr'
    rw [getById_pred_eq (st.lastId + 1) r']
    have := hinv r' hr'
    simp only [beq_eq_false_iff_ne, ne_eq]
    omega
  have hprNew : (jsParseInt (natDecimalRepr (st.lastId + 1))
      == some ((st.lastId + 1 : Nat) : Int)) = true := by
    rw [jsParseInt_natDecimalRepr]
    simp
  have hfind : (st.recipes ++ [(⟨st.lastId + 1, x, c⟩ : Recipe)]).find?
      (fun r => jsParseInt (natDecimalRepr (st.lastId + 1)) == some (r.id : Int))
        = some ⟨st.lastId + 1, x, c⟩ :=
    find?_append_fresh _ _ _ hpred hprNew
  have hfindIdx : (st.recipes ++ [(⟨st.lastId + 1, x, c⟩ : Recipe)]).findIdx?
      (fun r => jsParseInt (natDecimalRepr (st.lastId + 1)) == some (r.id : Int))
        = some st.recipes.length :=
    findIdx?_append_fresh _ _ _ hpred hprNew
  have hrec1 : ((st.add c x).1).recipes = st.recipes ++ [⟨st.lastId + 1, x, c⟩] := rfl
  have hget : ((st.add c x).1).getById (natDecimalRepr (st.lastId + 1))
      = some ⟨st.lastId + 1, x, c⟩ := by
    unfold RecipeStore.getById
    rw [hrec1]
    exact hfind
  have hdel : ((st.add c x).1).deleteById (natDecimalRepr (st.lastId + 1))
      = (⟨st.recipes, st.lastId + 1⟩, true) := by
    unfold RecipeStore.deleteById
    rw [hrec1, hfindIdx]
    simp only [eraseIdx_append_length, Prod.mk.injEq, RecipeStore.mk.injEq]
    exact ⟨⟨trivial, rfl⟩, trivial⟩
  have hfindOld : st.recipes.find?
      (fun r => jsParseInt (natDecimalRepr (st.lastId + 1)) == some (r.id : Int)) = none := by
    rw [List.find?_eq_none]
    intro r' hr' hp
    rw [hpred r' hr'] at hp
    cases hp
  have hgetOld : (⟨st.recipes, st.lastId + 1⟩ : RecipeStore).getById
      (natDecimalRepr (st.lastId + 1)) = none := by
    unfold RecipeStore.getById
    exact hfindOld
  refine ⟨?_, ?_, ?_⟩
  · show deleteRecipe (st.add c x).1 c (natDecimalRepr (st.lastId + 1)) (.ok ()) = _
    rw [deleteRecipe_found (st.add c x).1 c (natDecimalRepr (st.lastId + 1))
      ⟨st.lastId + 1, x, c⟩ hget rfl, hdel]
  · have hrec : resp.recipes
        = ((⟨st.recipes, st.lastId + 1⟩ : RecipeStore).getByCityId c).map
            (fun r => ⟨r.id, jsToString r.content⟩) := by
      cases f with
      | notFound => simp [getCityInfos] at hresp
      | otherErr => simp [getCityInfos] at hresp
      | ok cd =>
        simp only [getCityInfos] at hresp
        split at hresp
        · simp at hresp
        · split at hresp
          · simp at hresp
          · simp at hresp
          · split at hresp
            · simp at hresp
            · simp only [InfosReply.ok.injEq] at hresp
              subst hresp
              rfl
    intro ro hro
    rw [hrec] at hro
    obtain ⟨rr, hrr, rfl⟩ := List.mem_map.mp hro
    have hrr2 : rr ∈ st.recipes := (List.mem_filter.mp hrr).1
    have := hinv rr hrr2
    show rr.id ≠ st.lastId + 1
    omega
  · show deleteRecipe ⟨st.recipes, st.lastId + 1⟩ c (natDecimalRepr (st.lastId + 1)) (.ok ())
      = _
    exact deleteRecipe_notFound _ _ _ hgetOld

theorem delete_after_add_witness :
    deleteRecipe (RecipeStore.empty.add "nice" (.vstr "0123456789")).1 "nice"
        (natDecimalRepr 1) (.ok ()) = (⟨[], 1⟩, .noContent)
      ∧ (∀ ro ∈ respOk.recipes, ro.id ≠ 1)
      ∧ deleteRecipe ⟨[], 1⟩ "nice" (natDecimalRepr 1) (.ok ())
          = (⟨[], 1⟩, .err 404 "Recipe not found") := by
  have h := delete_after_add RecipeStore.empty "nice" (.vstr "0123456789")
    (.ok cdOk) (.ok wOk) respOk (by simp [RecipeStore.empty]) rfl
  exact h
